import Mathlib

/-!
# Verification of the clausea backend against its specification

Shallow embedding of the relevant parts of `apps/backend/src`:
* `routes/extension.py`   — `extract_domain`, `check_url`, `request_support`
* `dashboard/components/product_creation.py` — `show_product_creation` submit logic
* `dashboard/db_utils.py` — isolated persistence-gateway operations
* `services/email_service.py` — `EmailService.send_support_request` / `_send_email`

Python strings are embedded as Lean `String` (lists of characters at the
boundary); machine-independent values (`list`, `dict`, optional fields) map to
`List`, association lists and `Option`.  Fallible code returns `Except`.
External effects (the MongoDB driver, the resend provider, streamlit widgets)
are passed in as explicit parameters so every function is pure and executable.
-/

deriving instance DecidableEq for Except

namespace Clausea

/-! ## Python string primitives

`splitOnChar` is Python's `str.split(sep)` for a one-character separator:
`"".split(".") == [""]`, `"a.".split(".") == ["a", ""]`. -/

def splitOnChar (sep : Char) : List Char → List (List Char)
  | [] => [[]]
  | c :: cs =>
    if c = sep then [] :: splitOnChar sep cs
    else
      match splitOnChar sep cs with
      | [] => [[c]]
      | p :: ps => (c :: p) :: ps

/-- Python's `sep.join(parts)` for a one-character separator. -/
def joinWith (sep : Char) : List (List Char) → List Char
  | [] => []
  | [p] => p
  | p :: q :: ps => p ++ sep :: joinWith sep (q :: ps)

/-- Whitespace stripped by Python's `str.strip()` (ASCII subset; the unicode
whitespace code points also stripped by Python do not occur in any input
considered here). -/
def pyIsSpace (c : Char) : Bool :=
  c = ' ' || c = '\t' || c = '\n' || c = '\r' || c = '\x0b' || c = '\x0c'

def pystripL (l : List Char) : List Char :=
  ((l.dropWhile pyIsSpace).reverse.dropWhile pyIsSpace).reverse

/-- Python `str.strip()`. -/
def pystrip (s : String) : String := (pystripL s.toList).asString

/-- Python `str.lower()` (ASCII; Python also lowers non-ASCII letters, which do
not affect any property below since all compared keywords are ASCII). -/
def pyLower (s : String) : String := (s.toList.map Char.toLower).asString

/-- Python `str.replace(old, new)` for a one-character `old`. -/
def replaceChar (c : Char) (rep : List Char) : List Char → List Char
  | [] => []
  | x :: xs => (if x = c then rep else [x]) ++ replaceChar c rep xs

/-- `needle` is a leading segment of `hay`. -/
def listStartsWith : List Char → List Char → Bool
  | _, [] => true
  | [], _ :: _ => false
  | c :: cs, d :: ds => c = d && listStartsWith cs ds

/-- `needle` occurs contiguously inside `hay`. -/
def listContains (hay needle : List Char) : Bool :=
  match hay with
  | [] => needle.isEmpty
  | _ :: t => listStartsWith hay needle || listContains t needle

/-- Python `needle in hay` (contiguous-substring containment). -/
def containsSub (hay needle : String) : Bool :=
  listContains hay.toList needle.toList

/-! ## Model of `urllib.parse.urlparse` (CPython 3.12 semantics)

`extract_domain` delegates URL parsing to the standard library.  The model
below follows `Lib/urllib/parse.py`: leading C0-control/space characters are
stripped, tab/CR/LF removed everywhere, a scheme is recognised before the
first `:` when it starts with an ASCII letter and uses only scheme characters,
a netloc is read after a leading `//` up to the first `/?#`, bracketed hosts
are validated (raising `ValueError` — modelled as `Except.error` — on a
mismatched bracket, a non-IPv6/non-IPvFuture bracketed host, or a bracketed
IPv4 host), then fragment, query and (for `urlparse`) params are split off.
The NFKC-normalisation check `_checknetloc` (which can only reject exotic
non-ASCII netlocs) is modelled as a no-op; error message texts are abbreviated. -/

def isC0orSpace (c : Char) : Bool := c.toNat ≤ 0x20

def isSchemeChar (c : Char) : Bool :=
  c.isAlpha || c.isDigit || c = '+' || c = '-' || c = '.'

/-- Scheme recognition of `urlsplit`: split at the first `:` when everything
before it is a well-formed scheme, else leave the input unchanged. -/
def splitScheme (l : List Char) : List Char × List Char :=
  match l.findIdx? (fun c => c = ':') with
  | none => ([], l)
  | some i =>
    if 0 < i ∧ (l.headD ' ').isAlpha ∧ (l.take i).all isSchemeChar then
      ((l.take i).map Char.toLower, l.drop (i + 1))
    else ([], l)

/-- `_splitnetloc`: the netloc extends to the first of `/`, `?`, `#`. -/
def netlocChar (c : Char) : Bool := !(c = '/' || c = '?' || c = '#')

def isHexChar (c : Char) : Bool :=
  c.isDigit || ('a' ≤ c && c ≤ 'f') || ('A' ≤ c && c ≤ 'F')

/-- Decimal value of a digit string (used for IPv4 octet range checks). -/
def decVal (l : List Char) : Nat :=
  l.foldl (fun a c => 10 * a + (c.toNat - '0'.toNat)) 0

/-- A valid IPv4 octet per `ipaddress._parse_octet`: 1–3 ASCII digits, no
leading zero (unless the octet is exactly `0`), value at most 255. -/
def isIPv4Octet (l : List Char) : Bool :=
  !l.isEmpty && l.all Char.isDigit && decide (l.length ≤ 3) &&
    (decide (l.length = 1) || !(l.headD '0' = '0')) && decide (decVal l ≤ 255)

/-- A valid dotted-quad IPv4 address per `ipaddress.IPv4Address`. -/
def isIPv4 (l : List Char) : Bool :=
  let ps := splitOnChar '.' l
  decide (ps.length = 4) && ps.all isIPv4Octet

/-- A valid IPv6 hextet: 1–4 hex digits. -/
def isHextet (l : List Char) : Bool :=
  !l.isEmpty && decide (l.length ≤ 4) && l.all isHexChar

/-- `ipaddress.IPv6Address._ip_int_from_string` on the colon-split parts,
after any trailing embedded IPv4 part has been replaced by two hextets.
Only well-formedness (would Python raise?) is modelled, not the value. -/
def isIPv6Parts (parts : List (List Char)) : Bool :=
  let n := parts.length
  if 9 < n then false
  else
    let middle := (parts.drop 1).take (n - 2)
    let emptyCount := middle.countP (fun p => p.isEmpty)
    if 2 ≤ emptyCount then false
    else if emptyCount = 1 then
      let skip := 1 + middle.findIdx (fun p => p.isEmpty)
      let headEmpty := (parts.headD [' ']).isEmpty
      let lastEmpty := (parts.getLastD [' ']).isEmpty
      let hi := if headEmpty then skip - 1 else skip
      let lo := if lastEmpty then n - skip - 2 else n - skip - 1
      (!headEmpty || decide (hi = 0)) && (!lastEmpty || decide (lo = 0)) &&
        decide (hi + lo ≤ 7) &&
        (parts.take hi).all isHextet && (parts.drop (n - lo)).all isHextet
    else
      decide (n = 8) && !(parts.headD [' ']).isEmpty &&
        !(parts.getLastD [' ']).isEmpty && parts.all isHextet

/-- IPv6 address body: at least three colon-separated parts; a trailing part
containing `.` must be a valid IPv4 address and stands for two hextets. -/
def isIPv6Addr (l : List Char) : Bool :=
  if l.isEmpty then false
  else
    let parts0 := splitOnChar ':' l
    if parts0.length < 3 then false
    else if '.' ∈ parts0.getLastD [] then
      if isIPv4 (parts0.getLastD []) then isIPv6Parts (parts0.dropLast ++ [['0'], ['0']])
      else false
    else isIPv6Parts parts0

/-- `ipaddress.IPv6Address` validity: an optional non-empty `%scope` suffix
(no `/` anywhere, no further `%` in the scope) after a valid address body. -/
def isIPv6 (l : List Char) : Bool :=
  if '/' ∈ l then false
  else
    let addr := l.takeWhile (fun c => c ≠ '%')
    let scope := (l.dropWhile (fun c => c ≠ '%')).drop 1
    (if '%' ∈ l then !scope.isEmpty && !('%' ∈ scope) else true) && isIPv6Addr addr

/-- `re.match(r"\Av[a-fA-F0-9]+\..+\Z", hostname)` for IPvFuture literals
(the tail may not contain a newline, which `.` does not match). -/
def isIPvFuture (l : List Char) : Bool :=
  match l with
  | 'v' :: rest =>
    let hex := rest.takeWhile isHexChar
    let after := rest.dropWhile isHexChar
    !hex.isEmpty &&
      (match after with
       | '.' :: t => !t.isEmpty && t.all (fun c => c ≠ '\n')
       | _ => false)
  | _ => false

/-- `urllib.parse._check_bracketed_host`: `v…` must be IPvFuture; otherwise a
bracketed IPv4 address is rejected and anything that is not a valid IPv6
address raises. Returns `true` when Python does not raise. -/
def bracketedHostOk (l : List Char) : Bool :=
  match l with
  | 'v' :: _ => isIPvFuture l
  | _ => if isIPv4 l then false else isIPv6 l

/-- `netloc.partition('[')[2].partition(']')[0]`. -/
def bracketedHost (netloc : List Char) : List Char :=
  ((netloc.dropWhile (fun c => c ≠ '[')).drop 1).takeWhile (fun c => c ≠ ']')

structure UrlSplitResult where
  scheme : List Char
  netloc : List Char
  path : List Char
  query : List Char
  fragment : List Char

deriving instance DecidableEq, Repr for UrlSplitResult

/-- Split at the first occurrence of `mark` (`url.split(mark, 1)`); when the
mark is absent the second component is empty, matching the unsplit case. -/
def splitAtMark (mark : Char) (l : List Char) : List Char × List Char :=
  (l.takeWhile (fun c => c ≠ mark), (l.dropWhile (fun c => c ≠ mark)).drop 1)

/-- `urllib.parse.urlsplit` (fragments allowed, default scheme `''`). -/
def urlsplitL (url0 : List Char) : Except String UrlSplitResult :=
  let url1 := (url0.dropWhile isC0orSpace).filter
    (fun c => !(c = '\t' || c = '\r' || c = '\n'))
  let sr := splitScheme url1
  match sr.2 with
  | '/' :: '/' :: r =>
    let netloc := r.takeWhile netlocChar
    let rest2 := r.dropWhile netlocChar
    if ('[' ∈ netloc ∧ ']' ∉ netloc) ∨ (']' ∈ netloc ∧ '[' ∉ netloc) then
      .error "Invalid IPv6 URL"
    else if '[' ∈ netloc ∧ ']' ∈ netloc ∧ bracketedHostOk (bracketedHost netloc) = false then
      .error "invalid bracketed host"
    else
      let fq := splitAtMark '#' rest2
      let pq := splitAtMark '?' fq.1
      .ok ⟨sr.1, netloc, pq.1, pq.2, fq.2⟩
  | rest =>
    let fq := splitAtMark '#' rest
    let pq := splitAtMark '?' fq.1
    .ok ⟨sr.1, [], pq.1, pq.2, fq.2⟩

/-- Schemes for which `urlparse` splits params off the path (`uses_params`). -/
def usesParams : List (List Char) :=
  ["".toList, "ftp".toList, "hdl".toList, "prospero".toList, "http".toList,
   "imap".toList, "https".toList, "shttp".toList, "rtsp".toList, "rtspu".toList,
   "sip".toList, "sips".toList, "mms".toList, "sftp".toList, "tel".toList]

/-- `urllib.parse._splitparams`: split at the first `;` after the last `/`
(or the first `;` anywhere when the path has no `/`). -/
def splitParamsL (p : List Char) : List Char × List Char :=
  if '/' ∈ p then
    let j := p.length - 1 - p.reverse.findIdx (fun c => c = '/')
    match (p.drop j).findIdx? (fun c => c = ';') with
    | none => (p, [])
    | some k => (p.take (j + k), p.drop (j + k + 1))
  else
    match p.findIdx? (fun c => c = ';') with
    | none => (p, [])
    | some i => (p.take i, p.drop (i + 1))

structure UrlParseResult where
  scheme : List Char
  netloc : List Char
  path : List Char
  params : List Char
  query : List Char
  fragment : List Char

deriving instance DecidableEq, Repr for UrlParseResult

/-- `urllib.parse.urlparse`. -/
def urlparseL (url : List Char) : Except String UrlParseResult := do
  let s ← urlsplitL url
  if s.scheme ∈ usesParams ∧ ';' ∈ s.path then
    let pp := splitParamsL s.path
    pure ⟨s.scheme, s.netloc, pp.1, pp.2, s.query, s.fragment⟩
  else
    pure ⟨s.scheme, s.netloc, s.path, [], s.query, s.fragment⟩

/-! ## `extract_domain` (`routes/extension.py`, lines 50–78) -/

/-- `hostname[4:]` after the `hostname.startswith("www.")` test. -/
def wwwStripped (hostname : List Char) : List Char :=
  if listStartsWith hostname "www.".toList then hostname.drop 4 else hostname

/-- The fixed `two_part_tlds` set of `extract_domain`. -/
def twoPartTlds : List (List Char) :=
  ["co.uk".toList, "com.au".toList, "co.nz".toList, "co.jp".toList,
   "com.br".toList, "co.in".toList]

/-- The subdomain-collapse step of `extract_domain` (`parts = hostname.split(".")`,
keep the last two parts, or the last three over a listed two-part TLD). -/
def domainFromHostname (hostname : List Char) : List Char :=
  let parts := splitOnChar '.' hostname
  if 3 ≤ parts.length then
    let potential_tld := joinWith '.' (parts.drop (parts.length - 2))
    if potential_tld ∈ twoPartTlds then
      joinWith '.' (parts.drop (parts.length - 3))
    else
      joinWith '.' (parts.drop (parts.length - 2))
  else hostname

/-- Body of `extract_domain` translated from the source; failures of
`urlparse` (Python `ValueError`) surface as `Except.error`.  The hostname is
`parsed.netloc or parsed.path` (the path when the netloc is empty). -/
def extractDomainL (url : List Char) : Except String (List Char) := do
  let parsed ← urlparseL url
  pure (domainFromHostname
    (wwwStripped (if parsed.netloc.isEmpty then parsed.path else parsed.netloc)))

/-- `extract_domain(url)`. -/
def extract_domain (url : String) : Except String String :=
  (extractDomainL url.toList).map List.asString

/-! ## Spec-worded model of the domain-canonicalisation algorithm (for C1)

`specRootDomain` follows the words of the specification (§4.1): strip a
leading `www.`, split on `.`, with 3+ parts return the last three joined by
`.` when the last two joined form a member of the fixed two-part-suffix set,
otherwise the last two joined; with fewer than 3 parts return the hostname
unchanged. -/

def specTwoPartSuffixes : List String :=
  ["co.uk", "com.au", "co.nz", "co.jp", "com.br", "co.in"]

def specRootDomain (hostname : List Char) : List Char :=
  let stripped := if listStartsWith hostname "www.".toList then hostname.drop 4 else hostname
  let parts := splitOnChar '.' stripped
  if 3 ≤ parts.length then
    if (joinWith '.' (parts.drop (parts.length - 2))).asString ∈ specTwoPartSuffixes then
      joinWith '.' (parts.drop (parts.length - 3))
    else
      joinWith '.' (parts.drop (parts.length - 2))
  else stripped

/-- The spec's algorithm end to end: take the network-location (or the path
when the network-location is empty) of the parsed URL, then canonicalise. -/
def extract_domain_spec (url : String) : Except String String :=
  (urlparseL url.toList).map
    (fun parsed =>
      (specRootDomain (if parsed.netloc.isEmpty then parsed.path else parsed.netloc)).asString)

/-! ## Lemmas about splitting and joining -/

theorem splitOnChar_ne_nil (sep : Char) (l : List Char) : splitOnChar sep l ≠ [] := by
  induction l with
  | nil => simp [splitOnChar]
  | cons c cs ih =>
    simp only [splitOnChar]
    split
    · simp
    · split
      · simp
      · simp

theorem not_mem_of_mem_splitOnChar {sep : Char} {l p : List Char}
    (hp : p ∈ splitOnChar sep l) : sep ∉ p := by
  induction l generalizing p with
  | nil =>
    simp only [splitOnChar, List.mem_singleton] at hp
    subst hp; simp
  | cons c cs ih =>
    simp only [splitOnChar] at hp
    by_cases hc : c = sep
    · rw [if_pos hc] at hp
      rcases List.mem_cons.mp hp with h | h
      · subst h; simp
      · exact ih h
    · rw [if_neg hc] at hp
      cases hs : splitOnChar sep cs with
      | nil => exact absurd hs (splitOnChar_ne_nil sep cs)
      | cons q qs =>
        rw [hs] at hp
        rcases List.mem_cons.mp hp with h | h
        · subst h
          intro hmem
          rcases List.mem_cons.mp hmem with h' | h'
          · exact hc h'.symm
          · exact ih (hs ▸ List.mem_cons_self q qs) h'
        · exact ih (hs ▸ List.mem_cons.mpr (Or.inr h))

theorem splitOnChar_of_not_mem {sep : Char} {l : List Char} (h : sep ∉ l) :
    splitOnChar sep l = [l] := by
  induction l with
  | nil => rfl
  | cons c cs ih =>
    simp only [splitOnChar]
    rw [if_neg (fun hc => h (List.mem_cons.mpr (Or.inl hc.symm)))]
    rw [ih (fun hm => h (List.mem_cons.mpr (Or.inr hm)))]

theorem splitOnChar_append {sep : Char} {p : List Char} (hp : sep ∉ p) (rest : List Char) :
    splitOnChar sep (p ++ sep :: rest) = p :: splitOnChar sep rest := by
  induction p with
  | nil => simp [splitOnChar]
  | cons c cs ih =>
    have hc : ¬ c = sep := fun h => hp (List.mem_cons.mpr (Or.inl h.symm))
    simp only [List.cons_append, splitOnChar, if_neg hc]
    rw [List.append_eq, ih (fun hm => hp (List.mem_cons.mpr (Or.inr hm)))]

theorem splitOnChar_joinWith {sep : Char} (ps : List (List Char)) (hne : ps ≠ [])
    (h : ∀ p ∈ ps, sep ∉ p) : splitOnChar sep (joinWith sep ps) = ps := by
  induction ps with
  | nil => exact absurd rfl hne
  | cons p ps ih =>
    cases ps with
    | nil =>
      simp only [joinWith]
      exact splitOnChar_of_not_mem (h p (List.mem_cons_self p []))
    | cons q qs =>
      simp only [joinWith]
      rw [splitOnChar_append (h p (List.mem_cons_self p _))]
      rw [ih (by simp) (fun r hr => h r (List.mem_cons.mpr (Or.inr hr)))]

theorem asString_eq_iff (l : List Char) (s : String) : l.asString = s ↔ l = s.toList :=
  ⟨fun h => by rw [← h]; rfl, fun h => by rw [h]; rfl⟩

theorem mem_suffixes_iff (l : List Char) :
    l.asString ∈ specTwoPartSuffixes ↔ l ∈ twoPartTlds := by
  simp [specTwoPartSuffixes, twoPartTlds, asString_eq_iff]

theorem specRootDomain_eq (h : List Char) :
    domainFromHostname (wwwStripped h) = specRootDomain h := by
  simp only [domainFromHostname, wwwStripped, specRootDomain]
  set st := if listStartsWith h "www.".toList then h.drop 4 else h with hst
  set parts := splitOnChar '.' st with hp
  by_cases h3 : 3 ≤ parts.length
  · rw [if_pos h3, if_pos h3]
    by_cases ht : joinWith '.' (parts.drop (parts.length - 2)) ∈ twoPartTlds
    · rw [if_pos ht, if_pos ((mem_suffixes_iff _).mpr ht)]
    · rw [if_neg ht, if_neg (fun hc => ht ((mem_suffixes_iff _).mp hc))]
  · rw [if_neg h3, if_neg h3]

theorem extract_domain_eq_spec (s : String) : extract_domain s = extract_domain_spec s := by
  unfold extract_domain extract_domain_spec extractDomainL
  cases urlparseL s.toList with
  | error e => rfl
  | ok p =>
    show Except.ok ((domainFromHostname
        (wwwStripped (if p.netloc.isEmpty then p.path else p.netloc))).asString) =
      Except.ok ((specRootDomain (if p.netloc.isEmpty then p.path else p.netloc)).asString)
    rw [specRootDomain_eq]

/-- **C1.** `extract_domain` follows the specified algorithm for every input
string — it agrees everywhere with the function written from the spec's own
words over the same URL-parsing front end — and returns the three documented
example values. -/
theorem C1_extract_domain_follows_spec :
    (∀ s : String, extract_domain s = extract_domain_spec s) ∧
    extract_domain "https://app.slack.com/client" = .ok "slack.com" ∧
    extract_domain "https://foo.bar.co.uk" = .ok "bar.co.uk" ∧
    extract_domain "https://zoom.us/join" = .ok "zoom.us" :=
  ⟨extract_domain_eq_spec, rfl, rfl, rfl⟩

def exceptIsOk {ε α : Type} : Except ε α → Bool
  | .ok _ => true
  | .error _ => false

/-- **C2, counterexample.** `extract_domain` is *not* total over all strings:
on `"https://["` Python's `urlparse` raises `ValueError: Invalid IPv6 URL`
(the authority contains `[` without `]`), so the claim that it never raises
fails at this input. -/
theorem C2_counterexample : ¬ (∀ s : String, exceptIsOk (extract_domain s) = true) := by
  intro hall
  exact absurd (hall "https://[") (by decide)

/-- **C2, amended.** `extract_domain` is pure, and it returns a string for
exactly those inputs on which the URL parser does not raise: every raise of
`extract_domain` comes from `urlparse` (mismatched-bracket or invalid
bracketed-host authorities), and the post-parse processing never fails. -/
theorem C2_total_after_parse (s : String) :
    exceptIsOk (extract_domain s) = exceptIsOk (urlparseL s.toList) := by
  unfold extract_domain extractDomainL
  cases urlparseL s.toList with
  | error e => rfl
  | ok p => rfl

/-! ## C10: shape invariant of `extract_domain` results -/

/-- Number of dot-separated labels of a string. -/
def labelCount (s : String) : Nat := (splitOnChar '.' s.toList).length

/-- The last two dot-separated labels joined by `.`. -/
def lastTwoLabels (s : String) : String :=
  (joinWith '.'
    ((splitOnChar '.' s.toList).drop ((splitOnChar '.' s.toList).length - 2))).asString

theorem domainFromHostname_labels (hostname : List Char) :
    (splitOnChar '.' (domainFromHostname hostname)).length ≤ 3 ∧
    ((splitOnChar '.' (domainFromHostname hostname)).length = 3 →
      (joinWith '.' ((splitOnChar '.' (domainFromHostname hostname)).drop
        ((splitOnChar '.' (domainFromHostname hostname)).length - 2))) ∈ twoPartTlds) := by
  unfold domainFromHostname
  set parts := splitOnChar '.' hostname with hparts
  have hsub3 : ∀ p ∈ parts.drop (parts.length - 3), '.' ∉ p :=
    fun p hp => not_mem_of_mem_splitOnChar (hparts ▸ List.drop_subset _ _ hp)
  have hsub2 : ∀ p ∈ parts.drop (parts.length - 2), '.' ∉ p :=
    fun p hp => not_mem_of_mem_splitOnChar (hparts ▸ List.drop_subset _ _ hp)
  by_cases h3 : 3 ≤ parts.length
  · simp only [if_pos h3]
    have hlen3 : (parts.drop (parts.length - 3)).length = 3 := by
      rw [List.length_drop]; omega
    have hlen2 : (parts.drop (parts.length - 2)).length = 2 := by
      rw [List.length_drop]; omega
    have hne3 : parts.drop (parts.length - 3) ≠ [] := by
      intro hnil; rw [hnil] at hlen3; simp at hlen3
    have hne2 : parts.drop (parts.length - 2) ≠ [] := by
      intro hnil; rw [hnil] at hlen2; simp at hlen2
    by_cases ht : joinWith '.' (parts.drop (parts.length - 2)) ∈ twoPartTlds
    · rw [if_pos ht]
      rw [splitOnChar_joinWith _ hne3 hsub3, hlen3]
      refine ⟨le_refl 3, fun _ => ?_⟩
      rw [List.drop_drop]
      have harith : parts.length - 3 + (3 - 2) = parts.length - 2 := by omega
      rw [harith]
      exact ht
    · rw [if_neg ht]
      rw [splitOnChar_joinWith _ hne2 hsub2, hlen2]
      exact ⟨by omega, fun hc => absurd hc (by omega)⟩
  · simp only [if_neg h3]
    rw [← hparts]
    exact ⟨by omega, fun hc => absurd hc (by omega)⟩

/-- **C10.** Every successful result of `extract_domain` has at most three
dot-separated labels, and has exactly three only when its last two labels
joined by `.` belong to the fixed two-part-suffix set. -/
theorem C10_result_label_shape (s r : String) (h : extract_domain s = .ok r) :
    labelCount r ≤ 3 ∧ (labelCount r = 3 → lastTwoLabels r ∈ specTwoPartSuffixes) := by
  unfold extract_domain extractDomainL at h
  cases hp : urlparseL s.toList with
  | error e => rw [hp] at h; exact absurd h (by simp [Except.map])
  | ok p =>
    rw [hp] at h
    have hr : (domainFromHostname
        (wwwStripped (if p.netloc.isEmpty then p.path else p.netloc))).asString = r := by
      exact Except.ok.inj h
    have hmain := domainFromHostname_labels
      (wwwStripped (if p.netloc.isEmpty then p.path else p.netloc))
    rw [← hr]
    unfold labelCount lastTwoLabels
    refine ⟨hmain.1, fun hc => ?_⟩
    exact (mem_suffixes_iff _).mpr (hmain.2 hc)

/-- Witness for C10 at a concrete input. -/
theorem C10_result_label_shape_witness :
    labelCount "bar.co.uk" ≤ 3 ∧
    (labelCount "bar.co.uk" = 3 → lastTwoLabels "bar.co.uk" ∈ specTwoPartSuffixes) :=
  C10_result_label_shape "https://foo.bar.co.uk" "bar.co.uk" rfl

/-! ## Data model

`src/models/product.py` is not part of the provided sources; the `Product`
record is modelled from the spec: §3 gives the field shapes, which agree with
the constructor call in `product_creation.py`.  `ProductOverview` is modelled
from the spec (§3): a read-only projection owned by an external service, with
`dangers` and `keypoints` as ordered lists of strings (Python treats a missing
or empty list uniformly as falsy in `check_url`, which the `List` model
preserves). -/

inductive Verdict where
  | very_user_friendly
  | user_friendly
  | moderate
  | pervasive
  | very_pervasive

deriving instance DecidableEq, Repr for Verdict

structure Product where
  id : String
  name : String
  company_name : Option String
  slug : String
  domains : List String
  categories : List String
  crawl_base_urls : List String

deriving instance DecidableEq, Repr for Product

structure ProductOverview where
  product_name : String
  verdict : Verdict
  risk_score : Int
  one_line_summary : String
  dangers : List String
  keypoints : List String

deriving instance DecidableEq, Repr for ProductOverview

/-- `ExtensionCheckResponse` of `routes/extension.py` (all optional fields
default to `None`). -/
structure ExtensionCheckResponse where
  found : Bool
  slug : Option String
  product_name : Option String
  verdict : Option Verdict
  risk_score : Option Int
  one_line_summary : Option String
  top_concerns : Option (List String)
  analysis_url : Option String

deriving instance DecidableEq, Repr for ExtensionCheckResponse

/-! ## `check_url` (`routes/extension.py`, lines 81–150)

The product service and database are external to the route; the lookups
`service.get_product_by_domain(db, ·)` and `service.get_product_overview(db, ·)`
are passed in as function parameters. -/

/-- The `risk_keywords` list of `check_url`. -/
def riskKeywords : List String :=
  ["share", "sell", "track", "collect", "third", "advertis", "retain"]

/-- The `top_concerns` computation of `check_url` (lines 129–139): initially
`None`; the first 3 `dangers` when non-empty; else, over non-empty
`keypoints`, the first 3 keypoints containing a risk keyword, falling back to
the first 3 raw keypoints when none match. -/
def topConcerns (overview : ProductOverview) : Option (List String) :=
  if overview.dangers ≠ [] then some (overview.dangers.take 3)
  else if overview.keypoints ≠ [] then
    let concerning := overview.keypoints.filter
      (fun kp => riskKeywords.any (fun word => containsSub (pyLower kp) word))
    if concerning ≠ [] then some (concerning.take 3)
    else some (overview.keypoints.take 3)
  else none

/-- Domain-to-product resolution of `check_url` (lines 104–112): exact-domain
lookup first; only when it misses and the domain has more than two labels,
one retry with the last two labels joined by `.`. -/
def resolveProduct (lookup : String → Option Product) (domain : String) : Option Product :=
  match lookup domain with
  | some product => some product
  | none =>
    let parts := splitOnChar '.' domain.toList
    if 2 < parts.length then
      lookup (joinWith '.' (parts.drop (parts.length - 2))).asString
    else none

def analysisUrl (slug : String) : String := "https://clausea.co/products/" ++ slug

/-- Response construction of `check_url` after the domain has been extracted
(lines 100–150): not-found, found-without-overview, and found-with-overview. -/
def buildCheckResponse (lookup : String → Option Product)
    (getOverview : String → Option ProductOverview) (domain : String) :
    ExtensionCheckResponse :=
  match resolveProduct lookup domain with
  | none => ⟨false, none, none, none, none, none, none, none⟩
  | some product =>
    match getOverview product.slug with
    | none =>
      ⟨true, some product.slug, some product.name, none, none, none, none,
        some (analysisUrl product.slug)⟩
    | some overview =>
      ⟨true, some product.slug, some overview.product_name, some overview.verdict,
        some overview.risk_score, some overview.one_line_summary, topConcerns overview,
        some (analysisUrl product.slug)⟩

/-- `check_url(url)`; a `ValueError` escaping `extract_domain` propagates. -/
def check_url (lookup : String → Option Product)
    (getOverview : String → Option ProductOverview) (url : String) :
    Except String ExtensionCheckResponse :=
  (extract_domain url).map (buildCheckResponse lookup getOverview)

/-- **C3.** `check_url` resolves in the documented order: exact-domain lookup
first; the base-domain retry happens only when the exact lookup misses and
the domain has more than two labels; and when neither lookup finds a product
the response is `found = false` with every other field absent. -/
theorem C3_check_url_lookup_order (lookup : String → Option Product)
    (getOverview : String → Option ProductOverview) (url domain : String)
    (hd : extract_domain url = .ok domain) :
    (∀ p, lookup domain = some p → resolveProduct lookup domain = some p) ∧
    (lookup domain = none → ¬ 2 < labelCount domain →
      resolveProduct lookup domain = none) ∧
    (lookup domain = none → 2 < labelCount domain →
      resolveProduct lookup domain = lookup (lastTwoLabels domain)) ∧
    (resolveProduct lookup domain = none →
      check_url lookup getOverview url =
        .ok ⟨false, none, none, none, none, none, none, none⟩) := by
  refine ⟨?_, ?_, ?_, ?_⟩
  · intro p hp
    unfold resolveProduct
    rw [hp]
  · intro hmiss hlab
    unfold resolveProduct
    rw [hmiss]
    simp only [labelCount] at hlab
    rw [if_neg hlab]
  · intro hmiss hlab
    unfold resolveProduct
    rw [hmiss]
    simp only [labelCount] at hlab
    rw [if_pos hlab]
    rfl
  · intro hnone
    unfold check_url
    rw [hd]
    show Except.ok (buildCheckResponse lookup getOverview domain) =
      Except.ok ⟨false, none, none, none, none, none, none, none⟩
    unfold buildCheckResponse
    rw [hnone]

/-- Witness for C3 at a concrete input: no product matches `zoom.us`. -/
theorem C3_check_url_lookup_order_witness :
    (∀ p, (fun _ : String => (none : Option Product)) "zoom.us" = some p →
      resolveProduct (fun _ => none) "zoom.us" = some p) ∧
    ((fun _ : String => (none : Option Product)) "zoom.us" = none →
      ¬ 2 < labelCount "zoom.us" → resolveProduct (fun _ => none) "zoom.us" = none) ∧
    ((fun _ : String => (none : Option Product)) "zoom.us" = none →
      2 < labelCount "zoom.us" →
      resolveProduct (fun _ => none) "zoom.us" =
        (fun _ : String => (none : Option Product)) (lastTwoLabels "zoom.us")) ∧
    (resolveProduct (fun _ => none) "zoom.us" = none →
      check_url (fun _ => none) (fun _ => none) "https://zoom.us/join" =
        .ok ⟨false, none, none, none, none, none, none, none⟩) :=
  C3_check_url_lookup_order (fun _ => none) (fun _ => none) "https://zoom.us/join"
    "zoom.us" rfl

/-! ## C4: the `top_concerns` selection rule -/

/-- The claim's selection rule read literally: first 3 `dangers` when
non-empty; otherwise the first 3 risk-keyword-matching keypoints; and when no
keypoint matches, the first 3 raw keypoints.  (Read this way the rule always
produces a list, even when `keypoints` is empty.) -/
def topConcernsClaim (overview : ProductOverview) : List String :=
  if overview.dangers ≠ [] then overview.dangers.take 3
  else
    let matching := overview.keypoints.filter
      (fun kp => riskKeywords.any (fun word => containsSub (pyLower kp) word))
    if matching ≠ [] then matching.take 3
    else overview.keypoints.take 3

/-- The claim's rule amended by the one case the code treats differently:
when `dangers` and `keypoints` are both empty, `top_concerns` is absent
(`None`), not the empty list. -/
def topConcernsAmended (overview : ProductOverview) : Option (List String) :=
  if overview.dangers = [] ∧ overview.keypoints = [] then none
  else some (topConcernsClaim overview)

theorem topConcerns_eq_amended (ov : ProductOverview) :
    topConcerns ov = topConcernsAmended ov := by
  simp only [topConcerns, topConcernsAmended, topConcernsClaim]
  by_cases hd : ov.dangers = []
  · by_cases hk : ov.keypoints = []
    · simp [hd, hk]
    · by_cases hm : ov.keypoints.filter
        (fun kp => riskKeywords.any (fun word => containsSub (pyLower kp) word)) = []
      · simp [hd, hk, hm]
      · simp [hd, hk, hm]
  · simp [hd]

def exProductA : Product :=
  ⟨"p1", "ProductA", none, "product-a", ["a.com"], [], []⟩

def exLookupA : String → Option Product :=
  fun d => if d = "a.com" then some exProductA else none

def exOverviewDangers : ProductOverview :=
  ⟨"ProductA", .moderate, 50, "summary",
   ["shares data", "sells data", "tracks location", "retains logs"], []⟩

def exOverviewEmpty : ProductOverview :=
  ⟨"ProductA", .moderate, 50, "summary", [], []⟩

/-- **C4, counterexample.** With a found product whose overview has empty
`dangers` and empty `keypoints`, the code leaves `top_concerns` absent
(`None`), while the claim's rule yields `some []`: the claim fails on this
response. -/
theorem C4_counterexample :
    ¬ ((check_url exLookupA (fun _ => some exOverviewEmpty) "https://a.com").map
        ExtensionCheckResponse.top_concerns =
      .ok (some (topConcernsClaim exOverviewEmpty))) := by
  decide

/-- **C4, amended.** For every `check_url` response where a product and its
overview both exist, `top_concerns` follows the claim's selection rule except
that it is absent when `dangers` and `keypoints` are both empty; on the
claim's own example (`dangers` of four entries) it is the first three entries
verbatim. -/
theorem C4_top_concerns_amended :
    (∀ (lookup : String → Option Product) (getOverview : String → Option ProductOverview)
      (url domain : String) (product : Product) (overview : ProductOverview),
      extract_domain url = .ok domain →
      resolveProduct lookup domain = some product →
      getOverview product.slug = some overview →
      (check_url lookup getOverview url).map ExtensionCheckResponse.top_concerns =
        .ok (topConcernsAmended overview)) ∧
    (check_url exLookupA (fun _ => some exOverviewDangers) "https://a.com").map
        ExtensionCheckResponse.top_concerns =
      .ok (some ["shares data", "sells data", "tracks location"]) := by
  constructor
  · intro lookup getOverview url domain product overview hd hp ho
    unfold check_url
    rw [hd]
    show Except.ok ((buildCheckResponse lookup getOverview domain).top_concerns) =
      Except.ok (topConcernsAmended overview)
    unfold buildCheckResponse
    simp only [hp, ho]
    show Except.ok (topConcerns overview) = Except.ok (topConcernsAmended overview)
    rw [topConcerns_eq_amended]
  · decide

/-- Witness for C4's amended statement at a concrete input. -/
theorem C4_top_concerns_amended_witness :
    (check_url exLookupA (fun _ => some exOverviewDangers) "https://a.com").map
        ExtensionCheckResponse.top_concerns =
      .ok (topConcernsAmended exOverviewDangers) :=
  C4_top_concerns_amended.1 exLookupA (fun _ => some exOverviewDangers)
    "https://a.com" "a.com" exProductA exOverviewDangers rfl (by decide) rfl

/-! ## Product creation form (`dashboard/components/product_creation.py`)

The submit branch of `show_product_creation` (lines 145–215).  Streamlit
widgets supply the raw field values, which become function arguments; the two
persistence operations (`get_product_by_slug_isolated` wrapped in
`run_async_with_retry`, and `create_product_isolated`) are abstracted as the
`lookup` function and the `createOk` outcome, and every persistence call made
is recorded in the returned call list.  `shortuuid.uuid()` is the `newId`
argument. -/

inductive PersistCall where
  | getBySlug (slug : String)
  | insert (product : Product)

deriving instance DecidableEq, Repr for PersistCall

inductive SubmitResult where
  | validationErrors (msgs : List String)
  | duplicateSlug (slug : String)
  | created (product : Product)
  | createFailed

deriving instance DecidableEq, Repr for SubmitResult

/-- `[x.strip() for x in items if x.strip()]`. -/
def strippedList (items : List String) : List String :=
  (items.map pystrip).filter (fun x => x ≠ "")

/-- `name.lower().replace(" ", "-").replace("&", "and")` (line 174). -/
def derivedSlug (name : String) : String :=
  (replaceChar '&' "and".toList
    (replaceChar ' ' "-".toList (name.toList.map Char.toLower))).asString

/-- `slug.strip() if slug.strip() else <derived>` (lines 171–175). -/
def finalSlugOf (name slug : String) : String :=
  if pystrip slug = "" then derivedSlug name else pystrip slug

/-- The submit handler: parse, validate, check slug uniqueness, create. -/
def show_product_creation_submit (lookup : String → Option Product) (createOk : Bool)
    (newId name company_name slug : String)
    (domains categories crawl_base_urls : List String) :
    SubmitResult × List PersistCall :=
  let domains_list := strippedList domains
  let categories_list := strippedList categories
  let crawl_base_urls_list := strippedList crawl_base_urls
  let company_name_value := if pystrip company_name = "" then none else some (pystrip company_name)
  let errors :=
    (if pystrip name = "" then ["Product name is required!"] else []) ++
    (if domains_list = [] ∧ crawl_base_urls_list = [] then
      ["At least one domain or crawl base URL is required!"] else [])
  if errors ≠ [] then (.validationErrors errors, [])
  else
    let final_slug := finalSlugOf name slug
    match lookup final_slug with
    | some _ => (.duplicateSlug final_slug, [.getBySlug final_slug])
    | none =>
      let product : Product :=
        ⟨newId, pystrip name, company_name_value, final_slug, domains_list,
          categories_list, crawl_base_urls_list⟩
      if createOk then (.created product, [.getBySlug final_slug, .insert product])
      else (.createFailed, [.getBySlug final_slug, .insert product])

/-- The claim's slug-derivation rule read literally:
`name.strip().lower()` with spaces replaced by `-` and `&` by `and`. -/
def slugFromNameClaim (name : String) : String :=
  (replaceChar '&' "and".toList
    (replaceChar ' ' "-".toList ((pystrip name).toList.map Char.toLower))).asString

/-- The slug-derivation rule amended to what the code does: the name is *not*
stripped before lowering, so leading/trailing spaces become hyphens:
`name.lower()` with spaces replaced by `-` and `&` by `and`. -/
def slugFromNameAmended (name : String) : String :=
  (replaceChar '&' "and".toList
    (replaceChar ' ' "-".toList (name.toList.map Char.toLower))).asString

def exNoProduct : String → Option Product := fun _ => none

def exAcmeProduct : Product :=
  ⟨"id1", "Acme", some "cn", "-acme-", ["a.com"], [], []⟩

/-- **C5, counterexample.** Submitting name `" Acme "` with an empty slug
field creates a product whose slug is `"-acme-"` (the code lowercases and
replaces without stripping first), not the claim's `"acme"`. -/
theorem C5_counterexample :
    (show_product_creation_submit exNoProduct true "id1" " Acme " "cn" ""
      ["a.com"] [] []).1 = SubmitResult.created exAcmeProduct ∧
    exAcmeProduct.slug ≠ slugFromNameClaim " Acme " := by
  decide

/-- **C5, amended.** Whenever the slug input is empty after trimming and a
product is created, its slug is `name.lower()` with every space replaced by
`-` and every `&` replaced by `and` (no stripping of the name before
lowering). -/
theorem C5_default_slug_amended (lookup : String → Option Product) (createOk : Bool)
    (newId name company_name slug : String)
    (domains categories crawl_base_urls : List String) (product : Product)
    (hslug : pystrip slug = "")
    (hres : (show_product_creation_submit lookup createOk newId name company_name slug
      domains categories crawl_base_urls).1 = SubmitResult.created product) :
    product.slug = slugFromNameAmended name := by
  simp only [show_product_creation_submit] at hres
  by_cases herr : ((if pystrip name = "" then ["Product name is required!"] else []) ++
      (if strippedList domains = [] ∧ strippedList crawl_base_urls = [] then
        ["At least one domain or crawl base URL is required!"] else [])) = []
  · rw [if_neg (not_not_intro herr)] at hres
    cases hl : lookup (finalSlugOf name slug) with
    | some q => rw [hl] at hres; simp at hres
    | none =>
      rw [hl] at hres
      cases createOk with
      | false => simp at hres
      | true =>
        have hres' : SubmitResult.created ⟨newId, pystrip name,
            (if pystrip company_name = "" then none else some (pystrip company_name)),
            finalSlugOf name slug, strippedList domains, strippedList categories,
            strippedList crawl_base_urls⟩ = SubmitResult.created product := hres
        injection hres' with h
        rw [← h]
        show finalSlugOf name slug = slugFromNameAmended name
        unfold finalSlugOf
        rw [if_pos hslug]
        rfl
  · rw [if_pos herr] at hres
    simp at hres

/-- Witness for C5's amended statement at a concrete input. -/
theorem C5_default_slug_amended_witness :
    exAcmeProduct.slug = slugFromNameAmended " Acme " :=
  C5_default_slug_amended exNoProduct true "id1" " Acme " "cn" "" ["a.com"] [] []
    exAcmeProduct (by decide) (by decide)

/-- **C6.** A form submission: (i) with an empty trimmed name or with both
trimmed lists empty shows validation errors and makes no persistence call of
any kind; (ii) with valid fields but an already-taken candidate slug shows
the duplicate-slug error and performs no insert; (iii) creates a product iff
validation passes, the slug is free and the create call succeeds; and
(iv) the create operation is invoked iff validation passes and the slug is
free. -/
theorem C6_submit_guard (lookup : String → Option Product) (createOk : Bool)
    (newId name company_name slug : String)
    (domains categories crawl_base_urls : List String) :
    (pystrip name = "" ∨ (strippedList domains = [] ∧ strippedList crawl_base_urls = []) →
      (∃ msgs, (show_product_creation_submit lookup createOk newId name company_name slug
          domains categories crawl_base_urls).1 = .validationErrors msgs) ∧
      (show_product_creation_submit lookup createOk newId name company_name slug
        domains categories crawl_base_urls).2 = []) ∧
    (pystrip name ≠ "" → ¬(strippedList domains = [] ∧ strippedList crawl_base_urls = []) →
      (lookup (finalSlugOf name slug)).isSome = true →
      (show_product_creation_submit lookup createOk newId name company_name slug
        domains categories crawl_base_urls).1 = .duplicateSlug (finalSlugOf name slug) ∧
      (∀ p, PersistCall.insert p ∉ (show_product_creation_submit lookup createOk newId name
        company_name slug domains categories crawl_base_urls).2)) ∧
    ((∃ p, (show_product_creation_submit lookup createOk newId name company_name slug
        domains categories crawl_base_urls).1 = .created p) ↔
      (pystrip name ≠ "" ∧ ¬(strippedList domains = [] ∧ strippedList crawl_base_urls = []) ∧
        lookup (finalSlugOf name slug) = none ∧ createOk = true)) ∧
    ((∃ p, PersistCall.insert p ∈ (show_product_creation_submit lookup createOk newId name
        company_name slug domains categories crawl_base_urls).2) ↔
      (pystrip name ≠ "" ∧ ¬(strippedList domains = [] ∧ strippedList crawl_base_urls = []) ∧
        lookup (finalSlugOf name slug) = none)) := by
  by_cases hname : pystrip name = ""
  · have herr : ((if pystrip name = "" then ["Product name is required!"] else []) ++
        (if strippedList domains = [] ∧ strippedList crawl_base_urls = [] then
          ["At least one domain or crawl base URL is required!"] else [])) ≠ [] := by
      rw [if_pos hname]; simp
    have heq : show_product_creation_submit lookup createOk newId name company_name slug
        domains categories crawl_base_urls =
        (.validationErrors ((if pystrip name = "" then ["Product name is required!"] else []) ++
          (if strippedList domains = [] ∧ strippedList crawl_base_urls = [] then
            ["At least one domain or crawl base URL is required!"] else [])), []) := by
      simp only [show_product_creation_submit]
      rw [if_pos herr]
    refine ⟨fun _ => ⟨⟨_, by rw [heq]⟩, by rw [heq]⟩, fun hn _ _ => absurd hname hn, ?_, ?_⟩
    · constructor
      · intro hp
        obtain ⟨p, hp⟩ := hp
        rw [heq] at hp
        simp at hp
      · intro hc
        exact absurd hname hc.1
    · constructor
      · intro hp
        obtain ⟨p, hp⟩ := hp
        rw [heq] at hp
        simp at hp
      · intro hc
        exact absurd hname hc.1
  · by_cases hdom : strippedList domains = [] ∧ strippedList crawl_base_urls = []
    · have herr : ((if pystrip name = "" then ["Product name is required!"] else []) ++
          (if strippedList domains = [] ∧ strippedList crawl_base_urls = [] then
            ["At least one domain or crawl base URL is required!"] else [])) ≠ [] := by
        rw [if_neg hname, if_pos hdom]; simp
      have heq : show_product_creation_submit lookup createOk newId name company_name slug
          domains categories crawl_base_urls =
          (.validationErrors ((if pystrip name = "" then ["Product name is required!"] else []) ++
            (if strippedList domains = [] ∧ strippedList crawl_base_urls = [] then
              ["At least one domain or crawl base URL is required!"] else [])), []) := by
        simp only [show_product_creation_submit]
        rw [if_pos herr]
      refine ⟨fun _ => ⟨⟨_, by rw [heq]⟩, by rw [heq]⟩, fun _ hd _ => absurd hdom hd, ?_, ?_⟩
      · constructor
        · intro hp
          obtain ⟨p, hp⟩ := hp
          rw [heq] at hp
          simp at hp
        · intro hc
          exact absurd hdom hc.2.1
      · constructor
        · intro hp
          obtain ⟨p, hp⟩ := hp
          rw [heq] at hp
          simp at hp
        · intro hc
          exact absurd hdom hc.2.1
    · have herr : ¬(((if pystrip name = "" then ["Product name is required!"] else []) ++
          (if strippedList domains = [] ∧ strippedList crawl_base_urls = [] then
            ["At least one domain or crawl base URL is required!"] else [])) ≠ []) := by
        rw [if_neg hname, if_neg hdom]; simp
      cases hl : lookup (finalSlugOf name slug) with
      | some q =>
        have heq : show_product_creation_submit lookup createOk newId name company_name slug
            domains categories crawl_base_urls =
            (.duplicateSlug (finalSlugOf name slug), [.getBySlug (finalSlugOf name slug)]) := by
          simp only [show_product_creation_submit]
          rw [if_neg herr, hl]
        refine ⟨fun hd => ?_, fun _ _ _ => ⟨by rw [heq], ?_⟩, ?_, ?_⟩
        · rcases hd with hd | hd
          · exact absurd hd hname
          · exact absurd hd hdom
        · intro p
          rw [heq]
          simp
        · constructor
          · intro hp
            obtain ⟨p, hp⟩ := hp
            rw [heq] at hp
            simp at hp
          · intro hc
            exact Option.noConfusion hc.2.2.1
        · constructor
          · intro hp
            obtain ⟨p, hp⟩ := hp
            rw [heq] at hp
            simp at hp
          · intro hc
            exact Option.noConfusion hc.2.2
      | none =>
        cases createOk with
        | true =>
          have heq : show_product_creation_submit lookup true newId name company_name slug
              domains categories crawl_base_urls =
              (.created ⟨newId, pystrip name,
                  (if pystrip company_name = "" then none else some (pystrip company_name)),
                  finalSlugOf name slug, strippedList domains, strippedList categories,
                  strippedList crawl_base_urls⟩,
                [.getBySlug (finalSlugOf name slug),
                 .insert ⟨newId, pystrip name,
                  (if pystrip company_name = "" then none else some (pystrip company_name)),
                  finalSlugOf name slug, strippedList domains, strippedList categories,
                  strippedList crawl_base_urls⟩]) := by
            simp only [show_product_creation_submit]
            rw [if_neg herr, hl]
            simp
          refine ⟨fun hd => ?_, fun _ _ hs => ?_, ?_, ?_⟩
          · rcases hd with hd | hd
            · exact absurd hd hname
            · exact absurd hd hdom
          · simp at hs
          · refine ⟨fun _ => ⟨hname, hdom, rfl, rfl⟩, fun _ => ⟨⟨newId, pystrip name,
              (if pystrip company_name = "" then none else some (pystrip company_name)),
              finalSlugOf name slug, strippedList domains, strippedList categories,
              strippedList crawl_base_urls⟩, ?_⟩⟩
            rw [heq]
          · refine ⟨fun _ => ⟨hname, hdom, rfl⟩, fun _ => ⟨⟨newId, pystrip name,
              (if pystrip company_name = "" then none else some (pystrip company_name)),
              finalSlugOf name slug, strippedList domains, strippedList categories,
              strippedList crawl_base_urls⟩, ?_⟩⟩
            rw [heq]
            simp
        | false =>
          have heq : show_product_creation_submit lookup false newId name company_name slug
              domains categories crawl_base_urls =
              (.createFailed,
                [.getBySlug (finalSlugOf name slug),
                 .insert ⟨newId, pystrip name,
                  (if pystrip company_name = "" then none else some (pystrip company_name)),
                  finalSlugOf name slug, strippedList domains, strippedList categories,
                  strippedList crawl_base_urls⟩]) := by
            simp only [show_product_creation_submit]
            rw [if_neg herr, hl]
            simp
          refine ⟨fun hd => ?_, fun _ _ hs => ?_, ?_, ?_⟩
          · rcases hd with hd | hd
            · exact absurd hd hname
            · exact absurd hd hdom
          · simp at hs
          · constructor
            · intro hp
              obtain ⟨p, hp⟩ := hp
              rw [heq] at hp
              simp at hp
            · intro hc
              exact Bool.noConfusion hc.2.2.2
          · refine ⟨fun _ => ⟨hname, hdom, rfl⟩, fun _ => ⟨⟨newId, pystrip name,
              (if pystrip company_name = "" then none else some (pystrip company_name)),
              finalSlugOf name slug, strippedList domains, strippedList categories,
              strippedList crawl_base_urls⟩, ?_⟩⟩
            rw [heq]
            simp

/-- Witness for C6 at concrete inputs: a valid submission creates a product. -/
theorem C6_submit_guard_witness :
    ∃ p, (show_product_creation_submit exNoProduct true "id1" "Acme" "" ""
      ["a.com"] [] []).1 = SubmitResult.created p :=
  (C6_submit_guard exNoProduct true "id1" "Acme" "" "" ["a.com"] [] []).2.2.1.mpr
    ⟨by decide, by decide, rfl, rfl⟩

/-! ## Persistence gateway (`dashboard/db_utils.py`)

The MongoDB driver is external.  `get_dashboard_db()` only constructs a lazy
client (no I/O is performed), so connection acquisition is modelled as always
available; the awaited driver operations inside each `try:` block are passed
in as `Except`-valued parameters whose `error` case is a raised driver
exception.  Per-document model validation (`Product(**doc)`) may raise; for
`get_all_products_isolated` the conversion parameter returns `none` both for
a document missing its `id` field and for a failing conversion, matching the
two `continue` branches of the loop. -/

/-- Body of the `try:` block of `get_all_products_isolated` (lines 167–200):
fetch all raw documents sorted by name, return `[]` when none, else convert
each document, skipping the unconvertible ones. -/
def get_all_products_tryBody {α : Type} (find : Except String (List α))
    (convert : α → Option Product) : Except String (List Product) :=
  match find with
  | .error e => .error e
  | .ok raw_products =>
    if raw_products.isEmpty then .ok []
    else .ok (raw_products.filterMap convert)

/-- `get_all_products_isolated`: the surrounding `except` returns `[]` on any
store failure. -/
def get_all_products_isolated {α : Type} (find : Except String (List α))
    (convert : α → Option Product) : List Product :=
  match get_all_products_tryBody find convert with
  | .ok products => products
  | .error _ => []

/-- Body of the `try:` block of `get_product_by_slug_isolated` (lines
209–214): `find_one`, then model conversion (which may itself raise, caught
by the same `except`). -/
def get_product_by_slug_tryBody {α : Type} (find_one : Except String (Option α))
    (convert : α → Except String Product) : Except String (Option Product) :=
  match find_one with
  | .error e => .error e
  | .ok none => .ok none
  | .ok (some doc) =>
    match convert doc with
    | .error e => .error e
    | .ok p => .ok (some p)

/-- `get_product_by_slug_isolated`: the surrounding `except` returns `None`
on any failure. -/
def get_product_by_slug_isolated {α : Type} (find_one : Except String (Option α))
    (convert : α → Except String Product) : Option Product :=
  match get_product_by_slug_tryBody find_one convert with
  | .ok r => r
  | .error _ => none

/-- **C7.** The gateway read operations never propagate a failure: when the
underlying store operation fails, `get_all_products_isolated` returns `[]`
and `get_product_by_slug_isolated` returns `None`; a failing model conversion
inside `get_product_by_slug_isolated` also degrades to `None`. -/
theorem C7_reads_degrade_on_failure {α : Type} (find : Except String (List α))
    (find_one : Except String (Option α)) (convertA : α → Option Product)
    (convertB : α → Except String Product) :
    (∀ e, find = .error e → get_all_products_isolated find convertA = []) ∧
    (∀ e, find_one = .error e → get_product_by_slug_isolated find_one convertB = none) ∧
    (∀ doc e, find_one = .ok (some doc) → convertB doc = .error e →
      get_product_by_slug_isolated find_one convertB = none) := by
  refine ⟨?_, ?_, ?_⟩
  · intro e he
    unfold get_all_products_isolated get_all_products_tryBody
    rw [he]
  · intro e he
    unfold get_product_by_slug_isolated get_product_by_slug_tryBody
    rw [he]
  · intro doc e hf hc
    unfold get_product_by_slug_isolated get_product_by_slug_tryBody
    simp [hf, hc]

/-- Witness for C7 at concrete failing stores. -/
theorem C7_reads_degrade_on_failure_witness :
    @get_all_products_isolated Unit (.error "boom") (fun _ => none) = [] ∧
    @get_product_by_slug_isolated Unit (.error "boom") (fun _ => .error "bad") = none ∧
    @get_product_by_slug_isolated Unit (.ok (some ())) (fun _ => .error "bad") = none :=
  ⟨(C7_reads_degrade_on_failure (.error "boom") (.error "boom")
      (fun _ => none) (fun _ => .error "bad")).1 "boom" rfl,
   (C7_reads_degrade_on_failure (α := Unit) (.error "boom") (.error "boom")
      (fun _ => none) (fun _ => .error "bad")).2.1 "boom" rfl,
   (C7_reads_degrade_on_failure (α := Unit) (.error "boom") (.ok (some ()))
      (fun _ => none) (fun _ => .error "bad")).2.2 () "bad" rfl rfl⟩

/-! ## Write operations (`update_product_isolated`, `delete_product_isolated`) -/

/-- `update_one({"id": product.id}, {"$set": product.model_dump()})` over a
stored collection: matches the first document with equal `id`; the match
counts as modified only when the `$set` actually changes it (stored product
documents hold exactly the model fields, so a matched document is modified
iff it differs from `product`).  Returns the new collection and
`modified_count`. -/
def mongoUpdateOne (store : List Product) (product : Product) : List Product × Nat :=
  match store with
  | [] => ([], 0)
  | q :: qs =>
    if q.id = product.id then
      if q = product then (q :: qs, 0) else (product :: qs, 1)
    else
      let r := mongoUpdateOne qs product
      (q :: r.1, r.2)

/-- `delete_one({"id": product_id})`: removes the first matching document;
returns the new collection and `deleted_count`. -/
def mongoDeleteOne (store : List Product) (product_id : String) : List Product × Nat :=
  match store with
  | [] => ([], 0)
  | q :: qs =>
    if q.id = product_id then (qs, 1)
    else
      let r := mongoDeleteOne qs product_id
      (q :: r.1, r.2)

/-- `update_product_isolated` (lines 232–243) applied to the awaited driver
result: `success = result.modified_count > 0`; `False` when the store raised. -/
def update_product_isolated (result : Except String Nat) : Bool :=
  match result with
  | .ok modified_count => decide (0 < modified_count)
  | .error _ => false

/-- `delete_product_isolated` (lines 246–257) applied to the awaited driver
result: `success = result.deleted_count > 0`; `False` when the store raised. -/
def delete_product_isolated (result : Except String Nat) : Bool :=
  match result with
  | .ok deleted_count => decide (0 < deleted_count)
  | .error _ => false

theorem mongoUpdateOne_pos_iff (store : List Product) (p : Product) :
    0 < (mongoUpdateOne store p).2 ↔ (mongoUpdateOne store p).1 ≠ store := by
  induction store with
  | nil => simp [mongoUpdateOne]
  | cons q qs ih =>
    simp only [mongoUpdateOne]
    by_cases hid : q.id = p.id
    · rw [if_pos hid]
      by_cases hq : q = p
      · rw [if_pos hq]; simp
      · rw [if_neg hq]; simp [Ne.symm hq]
    · rw [if_neg hid]
      simp [ih]

theorem mongoDeleteOne_pos_iff (store : List Product) (pid : String) :
    0 < (mongoDeleteOne store pid).2 ↔ (mongoDeleteOne store pid).1 ≠ store := by
  induction store with
  | nil => simp [mongoDeleteOne]
  | cons q qs ih =>
    simp only [mongoDeleteOne]
    by_cases hid : q.id = pid
    · rw [if_pos hid]
      exact ⟨fun _ => Ne.symm (List.cons_ne_self q qs), fun _ => Nat.zero_lt_one⟩
    · rw [if_neg hid]
      simp [ih]

/-- **C8.** `update_product_isolated` reports success iff the id-matched
`$set` replace actually changed the stored collection, and
`delete_product_isolated` reports success iff a stored record was actually
removed; in every other case — no match, no change, or a store error — they
return `false`. -/
theorem C8_write_success_iff_changed (store : List Product) (product : Product)
    (product_id : String) (e : String) :
    (update_product_isolated (.ok (mongoUpdateOne store product).2) = true ↔
      (mongoUpdateOne store product).1 ≠ store) ∧
    update_product_isolated (.error e) = false ∧
    (delete_product_isolated (.ok (mongoDeleteOne store product_id).2) = true ↔
      (mongoDeleteOne store product_id).1 ≠ store) ∧
    delete_product_isolated (.error e) = false := by
  refine ⟨?_, rfl, ?_, rfl⟩
  · simpa [update_product_isolated] using mongoUpdateOne_pos_iff store product
  · simpa [delete_product_isolated] using mongoDeleteOne_pos_iff store product_id

/-! ## Email service (`services/email_service.py`) and `request_support` -/

/-- Python truthiness of the optional `RESEND_API_KEY` (`if not api_key`):
unset or empty is falsy. -/
def apiKeyFalsy (api_key : Option String) : Bool :=
  match api_key with
  | none => true
  | some k => decide (k = "")

/-- `EmailService._send_email` (lines 66–86): raises the typed
`EmailServiceError` when the api key is unset/empty; otherwise performs the
provider call (outcome passed in as `provider_send`), wrapping any provider
exception in `EmailServiceError`.  Errors carry the `EmailServiceError`
message. -/
def send_email (api_key : Option String) (provider_send : Except String Unit) :
    Except String Unit :=
  if apiKeyFalsy api_key then .error "RESEND_API_KEY is not configured"
  else
    match provider_send with
    | .ok _ => .ok ()
    | .error _ => .error "Failed to send support email"

/-- `EmailService.send_support_request` (lines 36–64): formats the message
and delegates to `_send_email`; its only raises are those of `_send_email`.
The subject/body construction is kept for fidelity but does not influence
the outcome. -/
def send_support_request (api_key : Option String) (provider_send : Except String Unit)
    (domain url source : String) (metadata : List (String × String)) :
    Except String Unit :=
  let metadata_block :=
    if metadata = [] then ""
    else String.intercalate "\n" ("" :: "Additional metadata:" ::
      metadata.map (fun kv => "- " ++ kv.1 ++ ": " ++ kv.2))
  let _subject := "Clausea - Support request for " ++ domain
  let _body := "A user requested that Clausea support this site.\n\n" ++
    "Domain: " ++ domain ++ "\n" ++
    "URL: " ++ url ++ "\n" ++
    "Source: " ++ source ++ "\n" ++
    "Dashboard: https://clausea.co/products/" ++ domain ++ "\n" ++
    "Target apps data: https://github.com/lvndry/clausea/blob/main/apps/backend/src/data/target_apps.json" ++
    metadata_block
  send_email api_key provider_send

inductive RequestError where
  | http (status : Nat) (detail : String)
  | unhandled (message : String)

deriving instance DecidableEq, Repr for RequestError

structure ExtensionRequestSupportResponse where
  success : Bool

deriving instance DecidableEq, Repr for ExtensionRequestSupportResponse

/-- `request_support` (lines 173–206): extracts the domain (a `ValueError`
from `extract_domain` would propagate unhandled; the framework-validated
`AnyHttpUrl` payload does not produce one), sends the notification email,
converts a raised `EmailServiceError` into an HTTP 500 whose detail is the
error text, and returns `{success: true}` otherwise. -/
def requestSupportAfterDomain (api_key : Option String)
    (provider_send : Except String Unit) (url ip user_agent domain : String) :
    Except RequestError ExtensionRequestSupportResponse :=
  match send_support_request api_key provider_send domain url "browser_extension"
      [("ip", ip), ("user_agent", user_agent)] with
  | .error e => .error (.http 500 e)
  | .ok _ => .ok ⟨true⟩

def request_support (url : String) (api_key : Option String)
    (provider_send : Except String Unit) (ip user_agent : String) :
    Except RequestError ExtensionRequestSupportResponse :=
  match extract_domain url with
  | .error e => .error (.unhandled e)
  | .ok domain => requestSupportAfterDomain api_key provider_send url ip user_agent domain

theorem send_support_request_no_key (api_key : Option String)
    (provider_send : Except String Unit) (domain url source : String)
    (metadata : List (String × String)) (hk : apiKeyFalsy api_key = true) :
    send_support_request api_key provider_send domain url source metadata =
      .error "RESEND_API_KEY is not configured" := by
  simp only [send_support_request, send_email]
  rw [if_pos hk]

/-- **C9.** `request_support` fails with HTTP 500 exactly when email sending
fails; with an unset/empty provider API key `send_support_request` raises the
typed `EmailServiceError` and the endpoint surfaces the 500; and when the
email is sent the endpoint returns `{success: true}`. -/
theorem C9_request_support_500_iff_email_fails (url : String) (api_key : Option String)
    (provider_send : Except String Unit) (ip user_agent domain : String)
    (hd : extract_domain url = .ok domain) :
    ((∃ s, request_support url api_key provider_send ip user_agent = .error (.http 500 s)) ↔
      (∃ e, send_support_request api_key provider_send domain url "browser_extension"
        [("ip", ip), ("user_agent", user_agent)] = .error e)) ∧
    (apiKeyFalsy api_key = true →
      send_support_request api_key provider_send domain url "browser_extension"
        [("ip", ip), ("user_agent", user_agent)] = .error "RESEND_API_KEY is not configured" ∧
      request_support url api_key provider_send ip user_agent =
        .error (.http 500 "RESEND_API_KEY is not configured")) ∧
    (send_support_request api_key provider_send domain url "browser_extension"
        [("ip", ip), ("user_agent", user_agent)] = .ok () →
      request_support url api_key provider_send ip user_agent = .ok ⟨true⟩) := by
  have hreq : request_support url api_key provider_send ip user_agent =
      requestSupportAfterDomain api_key provider_send url ip user_agent domain := by
    unfold request_support
    rw [hd]
  rw [hreq]
  unfold requestSupportAfterDomain
  cases hs : send_support_request api_key provider_send domain url "browser_extension"
      [("ip", ip), ("user_agent", user_agent)] with
  | error e =>
    refine ⟨⟨fun _ => ⟨e, rfl⟩, fun _ => ⟨e, rfl⟩⟩, fun hk => ?_, fun hok => ?_⟩
    · have hno := send_support_request_no_key api_key provider_send domain url
        "browser_extension" [("ip", ip), ("user_agent", user_agent)] hk
      have he : e = "RESEND_API_KEY is not configured" :=
        Except.error.inj (hs.symm.trans hno)
      rw [he]
      exact ⟨rfl, rfl⟩
    · exact Except.noConfusion hok
  | ok val =>
    refine ⟨⟨fun hex => ?_, fun hex => ?_⟩, fun hk => ?_, fun _ => rfl⟩
    · obtain ⟨s, habs⟩ := hex
      exact Except.noConfusion habs
    · obtain ⟨e, habs⟩ := hex
      exact Except.noConfusion habs
    · have hno := send_support_request_no_key api_key provider_send domain url
        "browser_extension" [("ip", ip), ("user_agent", user_agent)] hk
      exact absurd (hs.symm.trans hno) (fun habs => Except.noConfusion habs)

/-- Witness for C9 at a concrete input: unset API key, valid URL. -/
theorem C9_request_support_500_iff_email_fails_witness :
    ((∃ s, request_support "https://zoom.us/join" none (.ok ()) "1.2.3.4" "ua" =
        .error (.http 500 s)) ↔
      (∃ e, send_support_request none (.ok ()) "zoom.us" "https://zoom.us/join"
        "browser_extension" [("ip", "1.2.3.4"), ("user_agent", "ua")] = .error e)) ∧
    (apiKeyFalsy none = true →
      send_support_request none (.ok ()) "zoom.us" "https://zoom.us/join"
        "browser_extension" [("ip", "1.2.3.4"), ("user_agent", "ua")] =
          .error "RESEND_API_KEY is not configured" ∧
      request_support "https://zoom.us/join" none (.ok ()) "1.2.3.4" "ua" =
        .error (.http 500 "RESEND_API_KEY is not configured")) ∧
    (send_support_request none (.ok ()) "zoom.us" "https://zoom.us/join"
        "browser_extension" [("ip", "1.2.3.4"), ("user_agent", "ua")] = .ok () →
      request_support "https://zoom.us/join" none (.ok ()) "1.2.3.4" "ua" = .ok ⟨true⟩) :=
  C9_request_support_500_iff_email_fails "https://zoom.us/join" none (.ok ())
    "1.2.3.4" "ua" "zoom.us" rfl

end Clausea
